import Mathlib

/-!
Verification of the weblayer tamper-evident cookie protocol and
request-dispatch/XSRF pipeline, shallowly embedded from the Python source
(`weblayer/cookie.py`, `weblayer/request.py`, `weblayer/normalise.py`).

Python 2 byte strings (`str`) and unicode strings are modelled as `List Nat`
of character codes.  Fallible Python code is modelled with `Except PyErr`.
`time.time()` is passed in explicitly as `now`.
-/

/-- Python exception kinds raised by the embedded code:
`ValueError` (e.g. `int()` on a non-numeric string, or the basestring check in
`_time_independent_equals`) and `TypeError` (the `expires_days` check). -/
inductive PyErr where
  | valueError
  | typeError
deriving DecidableEq, Repr

/-- ASCII whitespace stripped by Python `str.strip()` / accepted by `int()`. -/
def isSpace (c : Nat) : Bool :=
  c = 32 || c = 9 || c = 10 || c = 13 || c = 11 || c = 12

/-- `s.strip()` on a byte string. -/
def pyStrip (s : List Nat) : List Nat :=
  ((s.dropWhile isSpace).reverse.dropWhile isSpace).reverse

/-- Accumulating decimal-digit reader used by the model of `int()`. -/
def goDigits : List Nat → Nat → Option Nat
  | [], acc => some acc
  | c :: rest, acc =>
    if 48 ≤ c ∧ c ≤ 57 then goDigits rest (acc * 10 + (c - 48)) else none

/-- Reads a nonempty all-digit string as a `Nat`. -/
def digitsToNat (s : List Nat) : Option Nat :=
  match s with
  | [] => none
  | l => goDigits l 0

/-- Sign-and-digits reader for the model of `int()`: one optional sign,
then a nonempty run of decimal digits. -/
def pyIntCore : List Nat → Option Int
  | [] => none
  | c :: rest =>
    if c = 43 then (digitsToNat rest).map Int.ofNat
    else if c = 45 then (digitsToNat rest).map (fun n => -(n : Int))
    else (digitsToNat (c :: rest)).map Int.ofNat

/-- Model of Python 2 `int(s)` on a byte string: strips ASCII whitespace,
accepts one optional sign, then a nonempty run of decimal digits; anything
else raises `ValueError` (modelled as `none`). -/
def pyInt (s : List Nat) : Option Int :=
  pyIntCore (pyStrip s)

/-- Decimal rendering of a nonnegative integer, digit list accumulator form:
the model of `str(int(time.time()))`. -/
def natToDigitsAux : Nat → List Nat → List Nat
  | 0, acc => acc
  | n + 1, acc => natToDigitsAux ((n + 1) / 10) ((48 + (n + 1) % 10) :: acc)
decreasing_by exact Nat.div_lt_self (Nat.succ_pos n) (by omega)

/-- Model of Python `str(n)` for a nonnegative integer `n`. -/
def natToDigits (n : Nat) : List Nat :=
  if n = 0 then [48] else natToDigitsAux n []

/-- Model of Python `value.split(sep)` for a one-character separator:
returns the (never empty) list of chunks, keeping empty chunks. -/
def pySplit (sep : Nat) : List Nat → List (List Nat)
  | [] => [[]]
  | c :: rest =>
    match pySplit sep rest with
    | [] => [[]]
    | p :: ps => if c = sep then [] :: p :: ps else (c :: p) :: ps

/-- Model of a Python dict `.get` over an association list of byte strings
(used for `request.cookies`, `request.headers` and `request.params`). -/
def lookupStr (key : List Nat) : List (List Nat × List Nat) → Option (List Nat)
  | [] => none
  | (k, v) :: rest => if k = key then some v else lookupStr key rest

/-- ASCII `str.lower()` on one character code. -/
def lowerByte (c : Nat) : Nat := if 65 ≤ c ∧ c ≤ 90 then c + 32 else c

/-- ASCII `str.lower()` on a byte string. -/
def lowerStr (s : List Nat) : List Nat := s.map lowerByte

/-! ## base64 (model of `base64.b64encode` / `base64.b64decode`)

The encoder is the standard RFC 4648 encoding; the decoder mirrors CPython's
`binascii.a2b_base64` (which `base64.b64decode` wraps, converting its
`binascii.Error` into the `TypeError` that `cookie.get` catches): characters
outside the alphabet are skipped, a pad character is only honoured in the
last two positions of a quad, and leftover bits at the end are an error. -/

/-- The base64 alphabet: the character code for a 6-bit group. -/
def b64Char (n : Nat) : Nat :=
  if n < 26 then 65 + n
  else if n < 52 then 97 + (n - 26)
  else if n < 62 then 48 + (n - 52)
  else if n = 62 then 43
  else 47

/-- Model of `base64.b64encode` over bytes, three input bytes per four
output characters, with `=` (61) padding. -/
def b64encode : List Nat → List Nat
  | b0 :: b1 :: b2 :: rest =>
    b64Char (b0 / 4) :: b64Char (b0 % 4 * 16 + b1 / 16) ::
      b64Char (b1 % 16 * 4 + b2 / 64) :: b64Char (b2 % 64) :: b64encode rest
  | [b0, b1] =>
    [b64Char (b0 / 4), b64Char (b0 % 4 * 16 + b1 / 16), b64Char (b1 % 16 * 4), 61]
  | [b0] => [b64Char (b0 / 4), b64Char (b0 % 4 * 16), 61, 61]
  | [] => []

/-- Value of a base64 alphabet character, `none` for anything else. -/
def b64CharVal (c : Nat) : Option Nat :=
  if 65 ≤ c ∧ c ≤ 90 then some (c - 65)
  else if 97 ≤ c ∧ c ≤ 122 then some (26 + (c - 97))
  else if 48 ≤ c ∧ c ≤ 57 then some (52 + (c - 48))
  else if c = 43 then some 62
  else if c = 47 then some 63
  else none

/-- A character `binascii`'s pad lookahead counts as valid (alphabet or pad). -/
def b64ValidChar (c : Nat) : Bool :=
  decide (c ≤ 127) && ((b64CharVal c).isSome || decide (c = 61))

/-- `binascii_find_valid`: the `num`-th valid character at or after the
current position. -/
def findValidChar : List Nat → Nat → Option Nat
  | [], _ => none
  | c :: rest, num =>
    if b64ValidChar c then
      if num = 0 then some c else findValidChar rest (num - 1)
    else findValidChar rest num

/-- The `binascii.a2b_base64` loop: input, quad position, pending bit
accumulator, pending bit count, reversed output accumulator. -/
def a2bAux : List Nat → Nat → Nat → Nat → List Nat → Option (List Nat)
  | [], _, _, leftbits, acc =>
    if leftbits ≠ 0 then none else some acc.reverse
  | c :: rest, quadPos, leftchar, leftbits, acc =>
    if 127 < c ∨ c = 13 ∨ c = 10 ∨ c = 32 then
      a2bAux rest quadPos leftchar leftbits acc
    else if c = 61 then
      if quadPos < 2 ∨ (quadPos = 2 ∧ findValidChar (c :: rest) 1 ≠ some 61) then
        a2bAux rest quadPos leftchar leftbits acc
      else some acc.reverse
    else
      match b64CharVal c with
      | none => a2bAux rest quadPos leftchar leftbits acc
      | some v =>
        if 8 ≤ leftbits + 6 then
          a2bAux rest ((quadPos + 1) % 4) ((leftchar * 64 + v) % 2 ^ (leftbits + 6 - 8))
            (leftbits + 6 - 8) ((leftchar * 64 + v) / 2 ^ (leftbits + 6 - 8) % 256 :: acc)
        else a2bAux rest ((quadPos + 1) % 4) (leftchar * 64 + v) (leftbits + 6) acc

/-- Model of `base64.b64decode`; `none` is the `TypeError` ("incorrect
padding") that `SignedSecureCookieWrapper.get` catches. -/
def b64decode (s : List Nat) : Option (List Nat) :=
  a2bAux s 0 0 0 []

/-! ## SHA-1 and HMAC (model of `hashlib.sha1` / `hmac.new`)

`_generate_cookie_signature` builds `hmac.new(cookie_secret,
digestmod=hashlib.sha1)`, feeds it each part (already UTF-8 byte strings in
this byte-level model, so `encode_to_utf8` is the identity) through
successive `update` calls — i.e. hashes their concatenation — and returns
the lowercase hex digest. -/

/-- Truncation to a 32-bit word. -/
def w32 (n : Nat) : Nat := n % 4294967296

/-- 32-bit left rotation by `k` (for `k ≤ 32`) of a 32-bit word. -/
def rotl (k x : Nat) : Nat := x % 2 ^ (32 - k) * 2 ^ k + x / 2 ^ (32 - k)

/-- Big-endian 8-byte rendering of the 64-bit message bit length. -/
def be64 (n : Nat) : List Nat :=
  [n / 2 ^ 56 % 256, n / 2 ^ 48 % 256, n / 2 ^ 40 % 256, n / 2 ^ 32 % 256,
   n / 2 ^ 24 % 256, n / 2 ^ 16 % 256, n / 2 ^ 8 % 256, n % 256]

/-- Big-endian 4-byte rendering of a 32-bit word. -/
def wordBytes (n : Nat) : List Nat :=
  [n / 2 ^ 24 % 256, n / 2 ^ 16 % 256, n / 2 ^ 8 % 256, n % 256]

/-- SHA-1 padding: `0x80`, zeros to 56 mod 64, then the bit length. -/
def sha1Pad (msg : List Nat) : List Nat :=
  msg ++ 128 :: (List.replicate ((119 - msg.length % 64) % 64) 0 ++ be64 (8 * msg.length))

/-- Splits the padded message into 64-byte blocks. -/
def chunks64 (l : List Nat) : List (List Nat) :=
  if l = [] then [] else l.take 64 :: chunks64 (l.drop 64)
termination_by l.length
decreasing_by
  simp only [List.length_drop]
  have : l.length ≠ 0 := fun h => by simp [List.length_eq_zero.mp h] at *
  omega

/-- Big-endian 32-bit words of a block. -/
def bytesToWords : List Nat → List Nat
  | b0 :: b1 :: b2 :: b3 :: rest =>
    (((b0 * 256 + b1) * 256 + b2) * 256 + b3) :: bytesToWords rest
  | _ => []

/-- Message-schedule extension of the 16 block words to 80 words. -/
def sha1Extend (ws : List Nat) : List Nat :=
  (List.range 64).foldl
    (fun w _ =>
      let n := w.length
      w ++ [rotl 1 (w.getD (n - 3) 0 ^^^ w.getD (n - 8) 0 ^^^ w.getD (n - 14) 0 ^^^
        w.getD (n - 16) 0)])
    ws

/-- SHA-1 round function. -/
def sha1F (t b c d : Nat) : Nat :=
  if t < 20 then b &&& c ||| (b ^^^ 4294967295) &&& d
  else if t < 40 then b ^^^ c ^^^ d
  else if t < 60 then b &&& c ||| b &&& d ||| c &&& d
  else b ^^^ c ^^^ d

/-- SHA-1 round constants. -/
def sha1K (t : Nat) : Nat :=
  if t < 20 then 1518500249
  else if t < 40 then 1859775393
  else if t < 60 then 2400959708
  else 3395469782

/-- One SHA-1 compression round. -/
def sha1Round (w : List Nat) (st : Nat × Nat × Nat × Nat × Nat) (t : Nat) :
    Nat × Nat × Nat × Nat × Nat :=
  match st with
  | (a, b, c, d, e) =>
    (w32 (rotl 5 a + sha1F t b c d + e + sha1K t + w.getD t 0), a, rotl 30 b, c, d)

/-- SHA-1 compression of one 64-byte block into the chaining state. -/
def sha1Block (h : Nat × Nat × Nat × Nat × Nat) (block : List Nat) :
    Nat × Nat × Nat × Nat × Nat :=
  match h with
  | (h0, h1, h2, h3, h4) =>
    match (List.range 80).foldl (sha1Round (sha1Extend (bytesToWords block)))
        (h0, h1, h2, h3, h4) with
    | (a, b, c, d, e) =>
      (w32 (h0 + a), w32 (h1 + b), w32 (h2 + c), w32 (h3 + d), w32 (h4 + e))

/-- SHA-1 digest (20 bytes) of a byte string. -/
def sha1 (msg : List Nat) : List Nat :=
  match (chunks64 (sha1Pad msg)).foldl sha1Block
      (1732584193, 4023233417, 2562383102, 271733878, 3285377520) with
  | (h0, h1, h2, h3, h4) =>
    wordBytes h0 ++ wordBytes h1 ++ wordBytes h2 ++ wordBytes h3 ++ wordBytes h4

/-- HMAC-SHA1 digest bytes, with the standard 64-byte block size. -/
def hmacSha1 (key msg : List Nat) : List Nat :=
  let key0 := if 64 < key.length then sha1 key else key
  let padded := key0 ++ List.replicate (64 - key0.length) 0
  sha1 ((padded.map fun b => b ^^^ 92) ++ sha1 ((padded.map fun b => b ^^^ 54) ++ msg))

/-- Lowercase hex character of a nibble. -/
def hexChar (n : Nat) : Nat := if n < 10 then 48 + n else 87 + n

/-- Lowercase hex string of a byte string (model of `hexdigest()`). -/
def toHex (bytes : List Nat) : List Nat :=
  bytes.foldr (fun b acc => hexChar (b / 16 % 16) :: hexChar (b % 16) :: acc) []

/-- Model of `_generate_cookie_signature(cookie_secret, *parts)`:
HMAC-SHA1 of the concatenated parts under the secret, in lowercase hex. -/
def generateCookieSignature (secret : List Nat) (parts : List (List Nat)) : List Nat :=
  toHex (hmacSha1 secret parts.flatten)

/-! ## Python values

A small universe of Python values, enough for the duck-typed arguments the
claims exercise: `expires_days` in `set`, the operands of
`_time_independent_equals`, and the handler return values fed to
`DefaultToJSONResponseNormaliser.normalise`.  Python 2 `bool` is a subclass
of `int`, so `isInstInt` is true for it. -/

inductive PyValue where
  | pyNone
  | pyBool (b : Bool)
  | pyInt (n : Int)
  | pyStr (s : List Nat)
  | pyUnicode (s : List Nat)
  | pyDict (entries : List (Nat × Nat))
  | pyCallable (id : Nat)
deriving DecidableEq, Repr

/-- Python truthiness of a `PyValue`. -/
def PyValue.truthy : PyValue → Bool
  | .pyNone => false
  | .pyBool b => b
  | .pyInt n => decide (n ≠ 0)
  | .pyStr s => decide (s ≠ [])
  | .pyUnicode s => decide (s ≠ [])
  | .pyDict entries => decide (entries ≠ [])
  | .pyCallable _ => true

/-- `isinstance(v, int)` (true for `bool` too, as in Python 2). -/
def PyValue.isInstInt : PyValue → Bool
  | .pyBool _ => true
  | .pyInt _ => true
  | _ => false

/-- `isinstance(v, basestring)`. -/
def PyValue.isBasestring : PyValue → Bool
  | .pyStr _ => true
  | .pyUnicode _ => true
  | _ => false

/-- `isinstance(v, str)`. -/
def PyValue.isStr : PyValue → Bool
  | .pyStr _ => true
  | _ => false

/-- `isinstance(v, unicode)`. -/
def PyValue.isUnicode : PyValue → Bool
  | .pyUnicode _ => true
  | _ => false

/-- `callable(v)`. -/
def PyValue.isCallable : PyValue → Bool
  | .pyCallable _ => true
  | _ => false

/-- The character codes of a basestring `PyValue`. -/
def PyValue.strBytes : PyValue → List Nat
  | .pyStr s => s
  | .pyUnicode s => s
  | _ => []

/-! ## `_time_independent_equals` (cookie.py lines 44-84) -/

/-- The core comparison on character-code lists: unequal lengths are
`false`; otherwise the OR of the per-character XORs is folded over the full
zipped length and compared with zero at the end. -/
def timeIndependentEquals (a b : List Nat) : Bool :=
  if a.length ≠ b.length then false
  else ((a.zip b).foldl (fun result p => result ||| (p.1 ^^^ p.2)) 0) == 0

/-- `_time_independent_equals(a, b)` on Python values: each operand must be
a `basestring`, checked in order, else `ValueError` is raised. -/
def timeIndependentEqualsPy (a b : PyValue) : Except PyErr Bool :=
  if ¬ a.isBasestring then .error .valueError
  else if ¬ b.isBasestring then .error .valueError
  else .ok (timeIndependentEquals a.strBytes b.strBytes)

/-! ## `SignedSecureCookieWrapper` (cookie.py lines 121-204) -/

/-- The `response.set_cookie(name, value=..., max_age=...)` call that
`set` performs (further keyword cookie options are passed through
unmodelled). -/
structure SetCookie where
  name : List Nat
  value : List Nat
  max_age : Option Int
deriving DecidableEq, Repr

/-- The `expires_days` handling in `set` (cookie.py lines 147-151): a falsy
value leaves `max_age = None`; a truthy value must satisfy
`isinstance(expires_days, int)` (which in Python 2 admits `bool`) or
`TypeError` is raised, and is converted to seconds. -/
def expiresDaysToMaxAge (expires_days : PyValue) : Except PyErr (Option Int) :=
  if expires_days.truthy then
    match expires_days with
    | .pyInt n => .ok (some (n * 24 * 60 * 60))
    | .pyBool b => .ok (some ((if b then (1 : Int) else 0) * 24 * 60 * 60))
    | _ => .error .typeError
  else .ok none

/-- Model of `SignedSecureCookieWrapper.set(name, value, timestamp=None,
expires_days=30)` (cookie.py lines 137-158).  The `timestamp` argument is
modelled as an optional byte string; `timestamp and timestamp or
str(int(time.time()))` keeps a truthy (nonempty) supplied value and falls
back to the current time otherwise.  The value written is
`b64encode(value) + "|" + timestamp + "|" + signature` (the separator `|`
is character 124). -/
def cookieSet (secret name value : List Nat) (timestamp : Option (List Nat))
    (expires_days : PyValue) (now : Nat) : Except PyErr SetCookie :=
  let ts := match timestamp with
    | some t => if t = [] then natToDigits now else t
    | none => natToDigits now
  let b64value := b64encode value
  let signature := generateCookieSignature secret [name, b64value, ts]
  let cookieValue := b64value ++ 124 :: (ts ++ 124 :: signature)
  match expiresDaysToMaxAge expires_days with
  | .error e => .error e
  | .ok max_age => .ok ⟨name, cookieValue, max_age⟩

/-- Model of `SignedSecureCookieWrapper.get(name, value=None)` (cookie.py
lines 161-190).  `cookies` is the request's cookie jar, consulted when no
explicit `value` is supplied.  `int(parts[1])` is uncaught Python, so a
non-numeric timestamp segment surfaces as `.error .valueError`; the
`TypeError` from `base64.b64decode` is caught and becomes `None`. -/
def cookieGet (secret : List Nat) (now : Nat) (cookies : List (List Nat × List Nat))
    (name : List Nat) (value? : Option (List Nat)) : Except PyErr (Option (List Nat)) :=
  let v := match value? with
    | none => lookupStr name cookies
    | some v => some v
  match v with
  | none => .ok none
  | some value =>
    let parts := pySplit 124 value
    if parts.length ≠ 3 then .ok none
    else
      match pyInt (parts.getD 1 []) with
      | none => .error .valueError
      | some timestamp =>
        if timestamp < (now : Int) - 31 * 86400 then .ok none
        else
          let signature :=
            generateCookieSignature secret [name, parts.getD 0 [], parts.getD 1 []]
          if timeIndependentEquals (parts.getD 2 []) signature then
            match b64decode (parts.getD 0 []) with
            | some payload => .ok (some payload)
            | none => .ok none
          else .ok none

/-! ## `DefaultToJSONResponseNormaliser` (normalise.py lines 58-207) -/

/-- The mutable response object fields that `normalise` touches. -/
structure ResponseObj where
  body : PyValue
  unicode_body : PyValue
  content_type : List Nat
deriving DecidableEq, Repr

/-- Result of `normalise`: either the held response object (possibly
mutated) or, for a callable handler result, that callable, which replaces
the held reference and is returned verbatim. -/
inductive NormaliseOut where
  | replaced (c : PyValue)
  | updated (r : ResponseObj)
deriving DecidableEq, Repr

/-- Model of `DefaultToJSONResponseNormaliser.normalise(handler_response)`
(normalise.py lines 192-207).  `json_encode` is the injected encoder and
`json_content_type` the configured constant (source default
`application/json; charset=UTF-8`).  Branch order follows the source:
callable, `str`, `unicode`, `None`, JSON fallback; the fallback sets the
content type, then assigns `body` when the encoder returned a `str` and
`unicode_body` otherwise. -/
def normalise (response : ResponseObj) (json_encode : PyValue → PyValue)
    (json_content_type : List Nat) (handler_response : PyValue) : NormaliseOut :=
  if handler_response.isCallable then .replaced handler_response
  else if handler_response.isStr then
    .updated ⟨handler_response, response.unicode_body, response.content_type⟩
  else if handler_response.isUnicode then
    .updated ⟨response.body, handler_response, response.content_type⟩
  else if handler_response = .pyNone then .updated response
  else
    let json_string := json_encode handler_response
    if json_string.isStr then
      .updated ⟨json_string, response.unicode_body, json_content_type⟩
    else
      .updated ⟨response.body, json_string, json_content_type⟩

/-! ## `BaseHandler` dispatch and XSRF validation (request.py lines 52-299) -/

/-- The parts of the WSGI request consulted by `BaseHandler.__call__` and
`xsrf_validate`: the HTTP method, the header map, the form parameters, the
cookie jar and `environ['paste.throw_errors']`. -/
structure Request where
  method : List Nat
  headers : List (List Nat × List Nat)
  params : List (List Nat × List Nat)
  cookies : List (List Nat × List Nat)
  throw_errors : Bool
deriving DecidableEq, Repr

/-- The `XSRFError` exception (a `ValueError` subclass in the source). -/
inductive XsrfErr where
  | xsrfError
deriving DecidableEq, Repr

/-- The byte string `post`. -/
def strPost : List Nat := [112, 111, 115, 116]

/-- The byte string `X-Requested-With`. -/
def strXRequestedWith : List Nat :=
  [88, 45, 82, 101, 113, 117, 101, 115, 116, 101, 100, 45, 87, 105, 116, 104]

/-- The byte string `XMLHttpRequest`. -/
def strXMLHttpRequest : List Nat :=
  [88, 77, 76, 72, 116, 116, 112, 82, 101, 113, 117, 101, 115, 116]

/-- The byte string `_xsrf`. -/
def strXsrf : List Nat := [95, 120, 115, 114, 102]

/-- Model of `BaseHandler.xsrf_validate` (request.py lines 198-214), with
the handler's current `xsrf_token` passed in.  Non-POST methods (after
lowercasing) and XHR-flagged requests pass; otherwise the `_xsrf` form
field must be present and equal to the token. -/
def xsrfValidate (req : Request) (token : List Nat) : Except XsrfErr Unit :=
  if lowerStr req.method ≠ strPost then .ok ()
  else if lookupStr strXRequestedWith req.headers = some strXMLHttpRequest then .ok ()
  else
    match lookupStr strXsrf req.params with
    | none => .error .xsrfError
    | some request_token =>
      if request_token ≠ token then .error .xsrfError else .ok ()

/-- What the selected handler method does when invoked: returns a value,
raises a `webob.exc.HTTPException` carrying an HTTP status, or raises some
other exception. -/
inductive MethodBehavior where
  | returns (v : PyValue)
  | raisesHTTP (status : Nat)
  | raisesOther
deriving DecidableEq, Repr

/-- The `handler_response` computed by `__call__` before normalisation:
either an error response built via `self.error(...)` (a webob response
carrying the given status) or the method's raw return value. -/
inductive HandlerResp where
  | errorResponse (status : Nat)
  | value (v : PyValue)
deriving DecidableEq, Repr

/-- A re-raised (propagated) exception escaping `__call__` in debug mode. -/
inductive Propagated where
  | exn
deriving DecidableEq, Repr

/-- The method invocation with its two `except` clauses (request.py lines
147-154): `HTTPException` becomes `self.error(exception=err)` with that
exception's status; any other exception is re-raised when
`environ['paste.throw_errors']` is set, else `handle_system_error` builds a
500 response. -/
def invokeMethod (m : MethodBehavior) (throw_errors : Bool) : Except Propagated HandlerResp :=
  match m with
  | .returns v => .ok (.value v)
  | .raisesHTTP status => .ok (.errorResponse status)
  | .raisesOther =>
    if throw_errors then .error .exn else .ok (.errorResponse 500)

/-- Model of `BaseHandler.__call__(method_name, ...)` (request.py lines
132-166) up to the final `response_normaliser.normalise(handler_response)`
call (error responses are callables and pass through `normalise`
verbatim; method return values are normalised as modelled by `normalise`).
`method?` is the result of `self._method_selector.select_method`; the two
booleans are the class attribute `check_xsrf` and the `check_xsrf` setting.
The second component records whether the `self.xsrf_validate()` call site
was executed. -/
def baseHandlerCall (check_xsrf_attr check_xsrf_setting : Bool)
    (method? : Option MethodBehavior) (req : Request) (token : List Nat) :
    Except Propagated HandlerResp × Bool :=
  match method? with
  | none => (.ok (.errorResponse 405), false)
  | some m =>
    if check_xsrf_attr && check_xsrf_setting then
      match xsrfValidate req token with
      | .error _ => (.ok (.errorResponse 403), true)
      | .ok _ => (invokeMethod m req.throw_errors, true)
    else (invokeMethod m req.throw_errors, false)

/-! ## Helper lemmas -/

theorem pySplit_ne_nil (sep : Nat) (l : List Nat) : pySplit sep l ≠ [] := by
  cases l with
  | nil => simp [pySplit]
  | cons c rest =>
    simp only [pySplit]
    cases pySplit sep rest with
    | nil => simp
    | cons p ps =>
      by_cases h : c = sep <;> simp [h]

theorem pySplit_no_sep {sep : Nat} {l : List Nat} (h : sep ∉ l) :
    pySplit sep l = [l] := by
  induction l with
  | nil => rfl
  | cons c rest ih =>
    have hc : c ≠ sep := fun hc => h (by simp [hc])
    have hr : sep ∉ rest := fun hr => h (by simp [hr])
    simp only [pySplit, ih hr]
    simp [hc]

theorem pySplit_append_sep {sep : Nat} {a : List Nat} (b : List Nat) (h : sep ∉ a) :
    pySplit sep (a ++ sep :: b) = a :: pySplit sep b := by
  induction a with
  | nil =>
    simp only [List.nil_append, pySplit]
    cases hb : pySplit sep b with
    | nil => exact absurd hb (pySplit_ne_nil sep b)
    | cons p ps => simp
  | cons c rest ih =>
    have hc : c ≠ sep := fun hc => h (by simp [hc])
    have hr : sep ∉ rest := fun hr => h (by simp [hr])
    show pySplit sep (c :: (rest ++ sep :: b)) = (c :: rest) :: pySplit sep b
    simp only [pySplit]
    rw [ih hr]
    simp [hc]

theorem b64Char_le (n : Nat) : b64Char n ≤ 122 := by
  simp only [b64Char]
  split <;> try omega
  split <;> try omega
  split <;> try omega
  split <;> omega

theorem mem_b64encode_le (v : List Nat) : ∀ c ∈ b64encode v, c ≤ 122 := by
  match v with
  | [] => simp [b64encode]
  | [b0] =>
    intro c hc
    simp only [b64encode, List.mem_cons, List.not_mem_nil, or_false] at hc
    rcases hc with h | h | h | h <;> subst h <;> first | exact b64Char_le _ | omega
  | [b0, b1] =>
    intro c hc
    simp only [b64encode, List.mem_cons, List.not_mem_nil, or_false] at hc
    rcases hc with h | h | h | h <;> subst h <;> first | exact b64Char_le _ | omega
  | b0 :: b1 :: b2 :: rest =>
    intro c hc
    simp only [b64encode, List.mem_cons] at hc
    rcases hc with h | h | h | h | h
    · subst h; exact b64Char_le _
    · subst h; exact b64Char_le _
    · subst h; exact b64Char_le _
    · subst h; exact b64Char_le _
    · exact mem_b64encode_le rest c h

theorem mem_natToDigitsAux {n : Nat} {acc : List Nat} :
    ∀ c ∈ natToDigitsAux n acc, (48 ≤ c ∧ c ≤ 57) ∨ c ∈ acc := by
  match n with
  | 0 => intro c hc; rw [natToDigitsAux] at hc; exact Or.inr hc
  | n + 1 =>
    intro c hc
    rw [natToDigitsAux] at hc
    rcases mem_natToDigitsAux c hc with h | h
    · exact Or.inl h
    · rcases List.mem_cons.mp h with h | h
      · subst h; left; constructor <;> omega
      · exact Or.inr h
decreasing_by exact Nat.div_lt_self (Nat.succ_pos n) (by omega)

theorem natToDigitsAux_ne_nil {n : Nat} {acc : List Nat} (h : acc ≠ []) :
    natToDigitsAux n acc ≠ [] := by
  match n with
  | 0 => rw [natToDigitsAux]; exact h
  | n + 1 =>
    rw [natToDigitsAux]
    exact natToDigitsAux_ne_nil (by simp)
decreasing_by exact Nat.div_lt_self (Nat.succ_pos n) (by omega)

theorem mem_natToDigits {n : Nat} : ∀ c ∈ natToDigits n, 48 ≤ c ∧ c ≤ 57 := by
  intro c hc
  simp only [natToDigits] at hc
  split at hc
  · simp at hc; omega
  · rcases mem_natToDigitsAux c hc with h | h
    · exact h
    · simp at h

/-- `10 ^ (number of decimal digits of n)`, following the digit recursion. -/
def tenPow (n : Nat) : Nat :=
  if n = 0 then 1 else 10 * tenPow (n / 10)
termination_by n
decreasing_by exact Nat.div_lt_self (by omega) (by omega)

theorem goDigits_natToDigitsAux (n : Nat) :
    ∀ (acc : List Nat) (v : Nat),
      goDigits (natToDigitsAux n acc) v = goDigits acc (v * tenPow n + n) := by
  match n with
  | 0 =>
    intro acc v
    rw [natToDigitsAux, tenPow]
    simp
  | m + 1 =>
    intro acc v
    rw [natToDigitsAux, goDigits_natToDigitsAux ((m + 1) / 10)]
    have hd : 48 ≤ 48 + (m + 1) % 10 ∧ 48 + (m + 1) % 10 ≤ 57 := by omega
    rw [goDigits, if_pos hd]
    have ht : tenPow (m + 1) = 10 * tenPow ((m + 1) / 10) := by
      rw [tenPow]; simp
    rw [ht]
    congr 1
    have := Nat.div_add_mod (m + 1) 10
    ring_nf
    omega
decreasing_by exact Nat.div_lt_self (by omega) (by omega)

theorem dropWhile_isSpace_of_digits {l : List Nat}
    (h : ∀ c ∈ l, 48 ≤ c ∧ c ≤ 57) : l.dropWhile isSpace = l := by
  cases l with
  | nil => rfl
  | cons c rest =>
    have hc := h c (by simp)
    have : isSpace c = false := by simp [isSpace]; omega
    simp [List.dropWhile_cons, this]

theorem pyStrip_of_digits {l : List Nat} (h : ∀ c ∈ l, 48 ≤ c ∧ c ≤ 57) :
    pyStrip l = l := by
  unfold pyStrip
  rw [dropWhile_isSpace_of_digits h]
  rw [dropWhile_isSpace_of_digits (fun c hc => h c (List.mem_reverse.mp hc))]
  exact List.reverse_reverse l

theorem pyInt_natToDigits (n : Nat) : pyInt (natToDigits n) = some (n : Int) := by
  by_cases h0 : n = 0
  · subst h0; decide
  · have hne : natToDigits n ≠ [] := by
      simp only [natToDigits, if_neg h0]
      rcases Nat.exists_eq_succ_of_ne_zero h0 with ⟨m, rfl⟩
      rw [natToDigitsAux]
      exact natToDigitsAux_ne_nil (by simp)
    have hdig : ∀ c ∈ natToDigits n, 48 ≤ c ∧ c ≤ 57 := mem_natToDigits
    have hval : goDigits (natToDigits n) 0 = some n := by
      simp only [natToDigits, if_neg h0]
      rw [goDigits_natToDigitsAux n [] 0]
      simp [goDigits]
    unfold pyInt
    rw [pyStrip_of_digits hdig]
    rcases hl : natToDigits n with _ | ⟨c, rest⟩
    · exact absurd hl hne
    · have hc := hdig c (by rw [hl]; simp)
      rw [pyIntCore, if_neg (by omega), if_neg (by omega)]
      rw [hl] at hval
      have hd : digitsToNat (c :: rest) = some n := hval
      rw [hd]
      rfl

theorem hexChar_le {n : Nat} (h : n < 16) : hexChar n ≤ 102 := by
  simp only [hexChar]; split <;> omega

theorem mem_toHex_le {l : List Nat} : ∀ c ∈ toHex l, c ≤ 102 := by
  induction l with
  | nil => simp [toHex]
  | cons b rest ih =>
    intro c hc
    have : toHex (b :: rest) =
        hexChar (b / 16 % 16) :: hexChar (b % 16) :: toHex rest := rfl
    rw [this] at hc
    rcases List.mem_cons.mp hc with h | h
    · subst h; exact hexChar_le (Nat.mod_lt _ (by omega))
    · rcases List.mem_cons.mp h with h | h
      · subst h; exact hexChar_le (Nat.mod_lt _ (by omega))
      · exact ih c h

theorem or_eq_zero_pair {a b : Nat} : a ||| b = 0 ↔ a = 0 ∧ b = 0 := by
  constructor
  · intro h
    constructor <;>
    · apply Nat.eq_of_testBit_eq
      intro k
      have hk := congrArg (fun x => Nat.testBit x k) h
      simp only [Nat.testBit_or, Nat.zero_testBit, Bool.or_eq_false_iff] at hk ⊢
      tauto
  · rintro ⟨rfl, rfl⟩
    rfl

theorem tiFold_eq_zero (l : List (Nat × Nat)) :
    ∀ r : Nat, (l.foldl (fun result p => result ||| (p.1 ^^^ p.2)) r = 0 ↔
      r = 0 ∧ ∀ p ∈ l, p.1 = p.2) := by
  induction l with
  | nil => intro r; simp
  | cons x l ih =>
    intro r
    rw [List.foldl_cons, ih]
    rw [or_eq_zero_pair, Nat.xor_eq_zero]
    constructor
    · rintro ⟨⟨h0, hxy⟩, hl⟩
      refine ⟨h0, ?_⟩
      intro p hp
      rcases List.mem_cons.mp hp with h | h
      · subst h; exact hxy
      · exact hl p h
    · rintro ⟨h0, hl⟩
      exact ⟨⟨h0, hl x (by simp)⟩, fun p hp => hl p (by simp [hp])⟩

theorem zip_pointwise_eq {a : List Nat} :
    ∀ {b : List Nat}, a.length = b.length →
      ((∀ p ∈ a.zip b, p.1 = p.2) ↔ a = b) := by
  induction a with
  | nil =>
    intro b hb
    cases b with
    | nil => simp
    | cons y ys => simp at hb
  | cons x xs ih =>
    intro b hb
    cases b with
    | nil => simp at hb
    | cons y ys =>
      simp only [List.zip_cons_cons, List.mem_cons, List.cons.injEq]
      rw [← ih (by simpa using hb)]
      constructor
      · intro h
        exact ⟨h (x, y) (Or.inl rfl), fun p hp => h p (Or.inr hp)⟩
      · rintro ⟨hxy, hrest⟩ p hp
        rcases hp with h | h
        · subst h; exact hxy
        · exact hrest p h

theorem timeIndependentEquals_iff (a b : List Nat) :
    timeIndependentEquals a b = true ↔ a = b := by
  unfold timeIndependentEquals
  by_cases h : a.length = b.length
  · rw [if_neg (by omega)]
    rw [beq_iff_eq, tiFold_eq_zero]
    simp only [true_and]
    exact zip_pointwise_eq h
  · rw [if_pos (by omega)]
    constructor
    · intro hf; cases hf
    · intro hab; subst hab; exact absurd rfl h

theorem b64CharVal_b64Char : ∀ n < 64, b64CharVal (b64Char n) = some n := by decide

theorem b64CharVal_bounds {c v : Nat} (hv : b64CharVal c = some v) :
    ¬(127 < c ∨ c = 13 ∨ c = 10 ∨ c = 32) ∧ c ≠ 61 := by
  simp only [b64CharVal] at hv
  split_ifs at hv with h1 h2 h3 h4 h5 <;> omega

theorem a2bAux_step_low {c v : Nat} (hv : b64CharVal c = some v)
    {lb : Nat} (hlb : lb + 6 < 8) (rest : List Nat) (q lc : Nat) (acc : List Nat) :
    a2bAux (c :: rest) q lc lb acc =
      a2bAux rest ((q + 1) % 4) (lc * 64 + v) (lb + 6) acc := by
  have hb := b64CharVal_bounds hv
  rw [a2bAux, if_neg hb.1, if_neg hb.2, hv]
  simp only [if_neg (by omega : ¬ 8 ≤ lb + 6)]

theorem a2bAux_step_high {c v : Nat} (hv : b64CharVal c = some v)
    {lb : Nat} (hlb : 8 ≤ lb + 6) (rest : List Nat) (q lc : Nat) (acc : List Nat) :
    a2bAux (c :: rest) q lc lb acc =
      a2bAux rest ((q + 1) % 4) ((lc * 64 + v) % 2 ^ (lb + 6 - 8)) (lb + 6 - 8)
        ((lc * 64 + v) / 2 ^ (lb + 6 - 8) % 256 :: acc) := by
  have hb := b64CharVal_bounds hv
  rw [a2bAux, if_neg hb.1, if_neg hb.2, hv]
  simp only [if_pos hlb]

theorem a2bAux_pad_term (rest : List Nat) (q lc lb : Nat) (acc : List Nat)
    (h : ¬(q < 2 ∨ (q = 2 ∧ findValidChar (61 :: rest) 1 ≠ some 61))) :
    a2bAux (61 :: rest) q lc lb acc = some acc.reverse := by
  rw [a2bAux, if_neg (by omega), if_pos rfl, if_neg h]

theorem a2bAux_group {b0 b1 b2 : Nat} (h0 : b0 < 256) (h1 : b1 < 256) (h2 : b2 < 256)
    (rest acc : List Nat) :
    a2bAux (b64Char (b0 / 4) :: b64Char (b0 % 4 * 16 + b1 / 16) ::
      b64Char (b1 % 16 * 4 + b2 / 64) :: b64Char (b2 % 64) :: rest) 0 0 0 acc =
    a2bAux rest 0 0 0 (b2 :: b1 :: b0 :: acc) := by
  have e0 := b64CharVal_b64Char (b0 / 4) (by omega)
  have e1 := b64CharVal_b64Char (b0 % 4 * 16 + b1 / 16) (by omega)
  have e2 := b64CharVal_b64Char (b1 % 16 * 4 + b2 / 64) (by omega)
  have e3 := b64CharVal_b64Char (b2 % 64) (by omega)
  rw [a2bAux_step_low e0 (by omega)]
  rw [a2bAux_step_high e1 (by omega)]
  rw [a2bAux_step_high e2 (by omega)]
  rw [a2bAux_step_high e3 (by omega)]
  norm_num
  have hb2 : (((b0 / 4 * 64 + (b0 % 4 * 16 + b1 / 16)) % 16 * 64 +
      (b1 % 16 * 4 + b2 / 64)) % 4 * 64 + b2 % 64) % 256 = b2 := by omega
  have hb1 : ((b0 / 4 * 64 + (b0 % 4 * 16 + b1 / 16)) % 16 * 64 +
      (b1 % 16 * 4 + b2 / 64)) / 4 % 256 = b1 := by omega
  have hb0 : (b0 / 4 * 64 + (b0 % 4 * 16 + b1 / 16)) / 16 % 256 = b0 := by omega
  have hz : (((b0 / 4 * 64 + (b0 % 4 * 16 + b1 / 16)) % 16 * 64 +
      (b1 % 16 * 4 + b2 / 64)) % 4 * 64 + b2 % 64) % 1 = 0 := by omega
  rw [hb2, hb1, hb0, hz]

theorem a2bAux_tail_one {b0 : Nat} (h0 : b0 < 256) (acc : List Nat) :
    a2bAux [b64Char (b0 / 4), b64Char (b0 % 4 * 16), 61, 61] 0 0 0 acc =
      some (b0 :: acc).reverse := by
  have e0 := b64CharVal_b64Char (b0 / 4) (by omega)
  have e1 := b64CharVal_b64Char (b0 % 4 * 16) (by omega)
  rw [a2bAux_step_low e0 (by omega)]
  rw [a2bAux_step_high e1 (by omega)]
  norm_num
  rw [a2bAux_pad_term _ _ _ _ _ (by decide)]
  have hb0 : (b0 / 4 * 64 + b0 % 4 * 16) / 16 % 256 = b0 := by omega
  rw [hb0]
  simp

theorem a2bAux_tail_two {b0 b1 : Nat} (h0 : b0 < 256) (h1 : b1 < 256) (acc : List Nat) :
    a2bAux [b64Char (b0 / 4), b64Char (b0 % 4 * 16 + b1 / 16), b64Char (b1 % 16 * 4), 61]
      0 0 0 acc = some (b1 :: b0 :: acc).reverse := by
  have e0 := b64CharVal_b64Char (b0 / 4) (by omega)
  have e1 := b64CharVal_b64Char (b0 % 4 * 16 + b1 / 16) (by omega)
  have e2 := b64CharVal_b64Char (b1 % 16 * 4) (by omega)
  rw [a2bAux_step_low e0 (by omega)]
  rw [a2bAux_step_high e1 (by omega)]
  rw [a2bAux_step_high e2 (by omega)]
  norm_num
  rw [a2bAux_pad_term _ _ _ _ _ (by decide)]
  have hb1 : ((b0 / 4 * 64 + (b0 % 4 * 16 + b1 / 16)) % 16 * 64 + b1 % 16 * 4) / 4 % 256
      = b1 := by omega
  have hb0 : (b0 / 4 * 64 + (b0 % 4 * 16 + b1 / 16)) / 16 % 256 = b0 := by omega
  rw [hb1, hb0]
  simp

theorem a2bAux_b64encode (v : List Nat) :
    ∀ acc : List Nat, (∀ b ∈ v, b < 256) →
      a2bAux (b64encode v) 0 0 0 acc = some (acc.reverse ++ v) := by
  match v with
  | [] =>
    intro acc h
    rw [b64encode, a2bAux]
    simp
  | [b0] =>
    intro acc h
    rw [b64encode, a2bAux_tail_one (h b0 (by simp)) acc]
    simp
  | [b0, b1] =>
    intro acc h
    rw [b64encode, a2bAux_tail_two (h b0 (by simp)) (h b1 (by simp)) acc]
    simp
  | b0 :: b1 :: b2 :: rest =>
    intro acc h
    rw [b64encode,
      a2bAux_group (h b0 (by simp)) (h b1 (by simp)) (h b2 (by simp)) (b64encode rest) acc]
    rw [a2bAux_b64encode rest (b2 :: b1 :: b0 :: acc) (fun b hb => h b (by simp [hb]))]
    simp

theorem b64decode_b64encode {v : List Nat} (h : ∀ b ∈ v, b < 256) :
    b64decode (b64encode v) = some v := by
  unfold b64decode
  rw [a2bAux_b64encode v [] h]
  simp

/-- Propositional equality on `Except` results is decidable (used to
evaluate the embedded functions at concrete inputs). -/
instance {ε α : Type} [DecidableEq ε] [DecidableEq α] : DecidableEq (Except ε α) :=
  fun a b =>
    match a, b with
    | .error e1, .error e2 =>
      if h : e1 = e2 then isTrue (by rw [h]) else isFalse (fun hc => h (by cases hc; rfl))
    | .ok v1, .ok v2 =>
      if h : v1 = v2 then isTrue (by rw [h]) else isFalse (fun hc => h (by cases hc; rfl))
    | .error e1, .ok v2 => isFalse (fun hc => by cases hc)
    | .ok v1, .error e2 => isFalse (fun hc => by cases hc)

/-! ## Claims -/

/-- Claim C5: the time-independent comparison returns true iff its two
operands are equal strings — computed for equal-length operands by folding
an OR of per-character differences over the full length, returning false
for unequal lengths — and fails with a `ValueError` (the source's
"InvalidInput") when either operand is not a `basestring`. -/
theorem claim_C5 (a b : PyValue) :
    (a.isBasestring = true → b.isBasestring = true →
      (timeIndependentEqualsPy a b = .ok true ↔ a.strBytes = b.strBytes)) ∧
    (¬(a.isBasestring = true ∧ b.isBasestring = true) →
      timeIndependentEqualsPy a b = .error .valueError) := by
  constructor
  · intro ha hb
    unfold timeIndependentEqualsPy
    rw [if_neg (by simp [ha]), if_neg (by simp [hb])]
    constructor
    · intro h
      exact (timeIndependentEquals_iff _ _).mp (Except.ok.inj h)
    · intro h
      rw [(timeIndependentEquals_iff _ _).mpr h]
  · intro h
    unfold timeIndependentEqualsPy
    by_cases ha : a.isBasestring = true
    · have hb : ¬ b.isBasestring = true := fun hb => h ⟨ha, hb⟩
      rw [if_neg (by simp [ha]), if_pos (by simp [hb])]
    · rw [if_pos (by simp [ha])]

/-- Witness for C5 at concrete inputs: `'a'` and `u'a'` are equal strings
and the comparison accepts them. -/
theorem claim_C5_witness :
    (PyValue.pyStr [97]).isBasestring = true ∧
    (PyValue.pyUnicode [97]).isBasestring = true ∧
    timeIndependentEqualsPy (.pyStr [97]) (.pyUnicode [97]) = .ok true :=
  ⟨by decide, by decide, ((claim_C5 (.pyStr [97]) (.pyUnicode [97])).1
    (by decide) (by decide)).mpr (by decide)⟩

/-- Claim C10: the `xsrf_validate` call site executes during dispatch
exactly when the method name resolved and both the class attribute
`check_xsrf` and the `check_xsrf` setting are true. -/
theorem claim_C10 (a s : Bool) (method? : Option MethodBehavior)
    (req : Request) (token : List Nat) :
    (baseHandlerCall a s method? req token).2 = (method?.isSome && (a && s)) := by
  cases method? with
  | none => simp [baseHandlerCall]
  | some m =>
    simp only [baseHandlerCall, Option.isSome_some, Bool.true_and]
    by_cases h : (a && s) = true
    · rw [if_pos h, h]
      cases xsrfValidate req token <;> rfl
    · rw [if_neg h]
      have hf : (a && s) = false := by cases a <;> cases s <;> simp_all
      simp [hf]

/-- Claim C3: dispatch classification — no method yields a 405 error
response; a handler raising an HTTP-status exception yields that status; a
plain exception yields 500 with the debug flag off and propagates with it
on; with the flag off the dispatch outcome is always a response, never a
propagated exception. -/
theorem claim_C3 (a s : Bool) (method? : Option MethodBehavior)
    (req : Request) (token : List Nat) :
    (method? = none →
      baseHandlerCall a s method? req token = (.ok (.errorResponse 405), false)) ∧
    (∀ st, method? = some (.raisesHTTP st) →
      ((a && s) = false ∨ xsrfValidate req token = .ok ()) →
      (baseHandlerCall a s method? req token).1 = .ok (.errorResponse st)) ∧
    (method? = some .raisesOther →
      ((a && s) = false ∨ xsrfValidate req token = .ok ()) →
      req.throw_errors = false →
      (baseHandlerCall a s method? req token).1 = .ok (.errorResponse 500)) ∧
    (method? = some .raisesOther →
      ((a && s) = false ∨ xsrfValidate req token = .ok ()) →
      req.throw_errors = true →
      (baseHandlerCall a s method? req token).1 = .error .exn) ∧
    (req.throw_errors = false →
      ∃ r, (baseHandlerCall a s method? req token).1 = .ok r) := by
  refine ⟨?_, ?_, ?_, ?_, ?_⟩
  · intro h; subst h; rfl
  · intro st h hx
    subst h
    rcases hx with hx | hx
    · simp [baseHandlerCall, hx, invokeMethod]
    · by_cases hf : (a && s) = true
      · simp [baseHandlerCall, hf, hx, invokeMethod]
      · simp [baseHandlerCall, hf, invokeMethod]
  · intro h hx hd
    subst h
    rcases hx with hx | hx
    · simp [baseHandlerCall, hx, invokeMethod, hd]
    · by_cases hf : (a && s) = true
      · simp [baseHandlerCall, hf, hx, invokeMethod, hd]
      · simp [baseHandlerCall, hf, invokeMethod, hd]
  · intro h hx hd
    subst h
    rcases hx with hx | hx
    · simp [baseHandlerCall, hx, invokeMethod, hd]
    · by_cases hf : (a && s) = true
      · simp [baseHandlerCall, hf, hx, invokeMethod, hd]
      · simp [baseHandlerCall, hf, invokeMethod, hd]
  · intro hd
    cases method? with
    | none => exact ⟨.errorResponse 405, rfl⟩
    | some m =>
      by_cases hf : (a && s) = true
      · simp only [baseHandlerCall, if_pos hf]
        cases hv : xsrfValidate req token with
        | error e => exact ⟨.errorResponse 403, rfl⟩
        | ok u =>
          cases m with
          | returns v => exact ⟨.value v, rfl⟩
          | raisesHTTP st => exact ⟨.errorResponse st, rfl⟩
          | raisesOther => exact ⟨.errorResponse 500, by simp [invokeMethod, hd]⟩
      · simp only [baseHandlerCall, if_neg hf]
        cases m with
        | returns v => exact ⟨.value v, rfl⟩
        | raisesHTTP st => exact ⟨.errorResponse st, rfl⟩
        | raisesOther => exact ⟨.errorResponse 500, by simp [invokeMethod, hd]⟩

/-- Witness for C3 at a concrete input: dispatching an unresolved method
name yields the 405 error response. -/
theorem claim_C3_witness :
    baseHandlerCall true true none ⟨strPost, [], [], [], false⟩ [] =
      (.ok (.errorResponse 405), false) :=
  (claim_C3 true true none ⟨strPost, [], [], [], false⟩ []).1 rfl

/-- Claim C4: `xsrf_validate` raises `XSRFError` iff the request method is
POST (matched case-insensitively by the source's `lower()`), the request
does not carry the `X-Requested-With: XMLHttpRequest` header, and the
submitted `_xsrf` field is absent or unequal to the handler's token;
non-POST and XHR-flagged requests never raise; and when the guard fails at
dispatch (with checking enabled) the error is caught and converted to a
403 response rather than propagating. -/
theorem claim_C4 (req : Request) (token : List Nat) :
    (xsrfValidate req token = .error .xsrfError ↔
      (lowerStr req.method = strPost ∧
       lookupStr strXRequestedWith req.headers ≠ some strXMLHttpRequest ∧
       (lookupStr strXsrf req.params = none ∨
        ∃ t, lookupStr strXsrf req.params = some t ∧ t ≠ token))) ∧
    (∀ m, xsrfValidate req token = .error .xsrfError →
      baseHandlerCall true true (some m) req token =
        (.ok (.errorResponse 403), true)) := by
  constructor
  · unfold xsrfValidate
    by_cases hm : lowerStr req.method = strPost
    · rw [if_neg (by simp [hm])]
      by_cases hh : lookupStr strXRequestedWith req.headers = some strXMLHttpRequest
      · rw [if_pos hh]
        simp [hh]
      · rw [if_neg hh]
        cases hp : lookupStr strXsrf req.params with
        | none => simp [hm, hh]
        | some t =>
          by_cases ht : t = token
          · subst ht
            simp [hm, hh]
          · simp [hm, hh, ht]
    · rw [if_pos (by simp [hm])]
      simp [hm]
  · intro m h
    simp [baseHandlerCall, h]

/-- Witness for C4 at a concrete input: a POST request with no XHR header
and no `_xsrf` field is rejected and dispatch converts the failure to a
403 response. -/
theorem claim_C4_witness :
    baseHandlerCall true true (some .raisesOther)
      ⟨[80, 79, 83, 84], [], [], [], false⟩ [97] =
      (.ok (.errorResponse 403), true) :=
  (claim_C4 ⟨[80, 79, 83, 84], [], [], [], false⟩ [97]).2 .raisesOther (by decide)

/-- Claim C8: `normalise` checks the handler result in precedence order —
callable results are returned verbatim in place of the held response; a
byte-string becomes the raw `body`; a text string becomes `unicode_body`;
`None` leaves the held response identical; anything else sets the JSON
content type and assigns the injected encoder's output as raw or text body
according to its type; every non-callable case returns the (possibly
mutated) held response object. -/
theorem claim_C8 (r : ResponseObj) (enc : PyValue → PyValue) (ct : List Nat)
    (v : PyValue) :
    (v.isCallable = true → normalise r enc ct v = .replaced v) ∧
    (∀ s, v = .pyStr s →
      normalise r enc ct v = .updated ⟨v, r.unicode_body, r.content_type⟩) ∧
    (∀ s, v = .pyUnicode s →
      normalise r enc ct v = .updated ⟨r.body, v, r.content_type⟩) ∧
    (v = .pyNone → normalise r enc ct v = .updated r) ∧
    (v.isCallable = false → v.isStr = false → v.isUnicode = false → v ≠ .pyNone →
      normalise r enc ct v =
        if (enc v).isStr = true then .updated ⟨enc v, r.unicode_body, ct⟩
        else .updated ⟨r.body, enc v, ct⟩) ∧
    (v.isCallable = false → ∃ r2, normalise r enc ct v = .updated r2) := by
  refine ⟨?_, ?_, ?_, ?_, ?_, ?_⟩
  · intro h
    cases v <;> simp_all [normalise, PyValue.isCallable]
  · intro s h
    subst h
    simp [normalise, PyValue.isCallable, PyValue.isStr]
  · intro s h
    subst h
    simp [normalise, PyValue.isCallable, PyValue.isStr, PyValue.isUnicode]
  · intro h
    subst h
    simp [normalise, PyValue.isCallable, PyValue.isStr, PyValue.isUnicode]
  · intro hc hs hu hn
    rw [normalise, if_neg (by simp [hc]), if_neg (by simp [hs]),
      if_neg (by simp [hu]), if_neg hn]
  · intro hc
    rw [normalise, if_neg (by simp [hc])]
    by_cases hs : v.isStr = true
    · exact ⟨_, by rw [if_pos hs]⟩
    · rw [if_neg hs]
      by_cases hu : v.isUnicode = true
      · exact ⟨_, by rw [if_pos hu]⟩
      · rw [if_neg hu]
        by_cases hn : v = .pyNone
        · exact ⟨r, by rw [if_pos hn]⟩
        · rw [if_neg hn]
          by_cases hj : (enc v).isStr = true
          · exact ⟨_, by rw [if_pos hj]⟩
          · exact ⟨_, by rw [if_neg hj]⟩

/-- Witness for C8 at a concrete input: `None` leaves the held response
object unchanged. -/
theorem claim_C8_witness :
    normalise ⟨.pyStr [97], .pyNone, [116]⟩ (fun _ => .pyStr []) [106] .pyNone =
      .updated ⟨.pyStr [97], .pyNone, [116]⟩ :=
  (claim_C8 ⟨.pyStr [97], .pyNone, [116]⟩ (fun _ => .pyStr []) [106] .pyNone).2.2.2.1 rfl

/-- Counterexample to claim C7 as stated: the empty string is a supplied,
non-integer `expires_days`, yet `set` succeeds (because the type check sits
inside `if expires_days:` and the empty string is falsy) and writes a
session cookie with no max-age instead of raising `TypeError`. -/
theorem claim_C7_counterexample :
    (PyValue.pyStr []).isInstInt = false ∧
    (cookieSet [] [110] [97] none (.pyStr []) 0).map SetCookie.max_age = .ok none := by
  constructor
  · rfl
  · simp [cookieSet, expiresDaysToMaxAge, PyValue.truthy, Except.map]

/-- Claim C7 as amended: a truthy integer `expires_days` converts to a
max-age of `expires_days * 86400` seconds; any falsy value (`None`, `0`,
and also falsy non-integers such as the empty string) yields a session
cookie with no max-age; and a truthy non-integer raises `TypeError`. -/
theorem claim_C7_amended (secret name value : List Nat) (ts : Option (List Nat))
    (ed : PyValue) (now : Nat) :
    (∀ n : Int, ed = .pyInt n → ed.truthy = true →
      (cookieSet secret name value ts ed now).map SetCookie.max_age =
        .ok (some (n * 86400))) ∧
    (ed.truthy = false →
      (cookieSet secret name value ts ed now).map SetCookie.max_age = .ok none) ∧
    (ed.truthy = true → ed.isInstInt = false →
      cookieSet secret name value ts ed now = .error .typeError) := by
  refine ⟨?_, ?_, ?_⟩
  · intro n h ht
    subst h
    simp only [cookieSet, expiresDaysToMaxAge, ht, if_true]
    norm_num [Except.map]
    ring
  · intro ht
    simp [cookieSet, expiresDaysToMaxAge, ht, Except.map]
  · intro ht hni
    cases ed <;> simp_all [cookieSet, expiresDaysToMaxAge, PyValue.isInstInt]

/-- Witness for the amended C7: `expires_days = 30` (the source default)
yields a max-age of 2592000 seconds. -/
theorem claim_C7_amended_witness :
    (cookieSet [] [110] [97] none (.pyInt 30) 0).map SetCookie.max_age =
      .ok (some 2592000) := by
  have h := (claim_C7_amended [] [110] [97] none (.pyInt 30) 0).1 30 rfl (by decide)
  rw [h]
  norm_num

/-- Claim C2 is right about the intent but the code contradicts its own
docstring ("Returns the given signed cookie if it validates, or None"): a
three-part cookie value whose middle segment is not a decimal integer hits
the uncaught `int(parts[1])` and raises `ValueError` instead of returning
`None`.  Evaluation of the embedded `get` on the failing input
`"YQ==|x|s"` (under any secret; here the empty one, at time 0). -/
theorem claim_C2_bug :
    cookieGet [] 0 [] [110] (some [89, 81, 61, 61, 124, 120, 124, 115]) =
      .error .valueError := by decide

/-- Claim C6: a well-formed signed cookie whose embedded timestamp parses
to a value more than 31 days (31 * 86400 seconds) before the current time
is rejected with `None` by `get`, whatever the signature segment contains
(so in particular even when it is valid for that timestamp), and
independently of any cookie max-age (which `get` never consults). -/
theorem claim_C6 (secret : List Nat) (now : Nat)
    (cookies : List (List Nat × List Nat)) (name payload ts sig : List Nat) (t : Int)
    (hp : 124 ∉ payload) (ht : 124 ∉ ts) (hs : 124 ∉ sig)
    (hts : pyInt ts = some t) (hold : t < (now : Int) - 31 * 86400) :
    cookieGet secret now cookies name (some (payload ++ 124 :: (ts ++ 124 :: sig))) =
      .ok none := by
  have hsplit : pySplit 124 (payload ++ 124 :: (ts ++ 124 :: sig)) =
      [payload, ts, sig] := by
    rw [pySplit_append_sep _ hp, pySplit_append_sep _ ht, pySplit_no_sep hs]
  simp only [cookieGet, hsplit, List.length_cons, List.length_nil,
    List.getD_cons_succ, List.getD_cons_zero]
  rw [if_neg (by norm_num)]
  simp only [hts]
  rw [if_pos hold]

/-- Witness for C6 at a concrete input: a cookie stamped `0`, read 31 days
plus one second later, is rejected. -/
theorem claim_C6_witness :
    cookieGet [] 2678401 [] [110]
      (some ([89, 81, 61, 61] ++ 124 :: ([48] ++ 124 :: [97, 98]))) = .ok none :=
  claim_C6 [] 2678401 [] [110] [89, 81, 61, 61] [48] [97, 98] 0
    (by decide) (by decide) (by decide) (by decide) (by decide)

/-- Claim C9: a truthy supplied `timestamp` is used verbatim as the signed
timestamp — the written cookie value embeds it and the signature covers it,
with the current time nowhere involved (the right-hand side below does not
mention `now`) — while a falsy supplied value (the empty string) falls back
to the current time exactly as an omitted argument does. -/
theorem claim_C9 (secret name value : List Nat) (t : List Nat) (ed : PyValue)
    (now : Nat) :
    (t ≠ [] →
      cookieSet secret name value (some t) ed now =
        (expiresDaysToMaxAge ed).map
          (fun ma => ⟨name, b64encode value ++ 124 :: (t ++ 124 ::
            generateCookieSignature secret [name, b64encode value, t]), ma⟩)) ∧
    (cookieSet secret name value (some []) ed now =
      cookieSet secret name value none ed now) := by
  constructor
  · intro hne
    simp only [cookieSet, if_neg hne]
    cases expiresDaysToMaxAge ed <;> simp [Except.map]
  · rfl

/-- Witness for C9 at a concrete input: the supplied timestamp string `"1"`
is embedded verbatim regardless of the current time (5 here). -/
theorem claim_C9_witness :
    ([49] : List Nat) ≠ [] ∧
    cookieSet [] [110] [97] (some [49]) (.pyInt 30) 5 =
      (expiresDaysToMaxAge (.pyInt 30)).map
        (fun ma => ⟨[110], b64encode [97] ++ 124 :: ([49] ++ 124 ::
          generateCookieSignature [] [[110], b64encode [97], [49]]), ma⟩) :=
  ⟨by decide, (claim_C9 [] [110] [97] [49] (.pyInt 30) 5).1 (by decide)⟩

/-- Claim C1: round-trip — for every secret, name and byte-valued payload,
setting the cookie (with the source's default `expires_days = 30`) and then
reading it back under the same name and the same current time recovers
exactly the payload. -/
theorem claim_C1 (secret name v : List Nat) (now : Nat) (h : ∀ b ∈ v, b < 256) :
    (cookieSet secret name v none (.pyInt 30) now).map
      (fun sc => cookieGet secret now [(name, sc.value)] name none) =
    .ok (.ok (some v)) := by
  have hb124 : (124 : Nat) ∉ b64encode v := fun hmem => by
    have := mem_b64encode_le v 124 hmem
    omega
  have ht124 : (124 : Nat) ∉ natToDigits now := fun hmem => by
    have := mem_natToDigits 124 hmem
    omega
  have hs124 : (124 : Nat) ∉ generateCookieSignature secret
      [name, b64encode v, natToDigits now] := fun hmem => by
    have hall : ∀ c ∈ generateCookieSignature secret [name, b64encode v, natToDigits now],
        c ≤ 102 := by
      unfold generateCookieSignature
      exact mem_toHex_le
    have := hall 124 hmem
    omega
  have hset : cookieSet secret name v none (.pyInt 30) now =
      .ok ⟨name, b64encode v ++ 124 :: (natToDigits now ++ 124 ::
        generateCookieSignature secret [name, b64encode v, natToDigits now]),
        some 2592000⟩ := by
    unfold cookieSet expiresDaysToMaxAge
    norm_num [PyValue.truthy]
  rw [hset]
  simp only [Except.map]
  have hsplit : pySplit 124 (b64encode v ++ 124 :: (natToDigits now ++ 124 ::
      generateCookieSignature secret [name, b64encode v, natToDigits now])) =
      [b64encode v, natToDigits now,
        generateCookieSignature secret [name, b64encode v, natToDigits now]] := by
    rw [pySplit_append_sep _ hb124, pySplit_append_sep _ ht124, pySplit_no_sep hs124]
  simp only [cookieGet, lookupStr, if_pos rfl, if_true]
  simp only [hsplit, List.length_cons, List.length_nil, List.getD_cons_succ,
    List.getD_cons_zero]
  rw [if_neg (by norm_num)]
  simp only [pyInt_natToDigits]
  rw [if_neg (by omega)]
  rw [if_pos ((timeIndependentEquals_iff _ _).mpr rfl)]
  rw [b64decode_b64encode h]

/-- Witness for C1 at a concrete input: payload `"a"` under the empty
secret and name `"n"` round-trips. -/
theorem claim_C1_witness :
    (cookieSet [] [110] [97] none (.pyInt 30) 0).map
      (fun sc => cookieGet [] 0 [([110], sc.value)] [110] none) =
    .ok (.ok (some [97])) :=
  claim_C1 [] [110] [97] 0 (by decide)
